import Mathlib

/-!
Verification development for the aq2api bridge (src/main.py).

Strings from the Python side are modelled as `List Char`.  Machine
integers do not occur in the verified code paths; JSON-brace depth is a
Python `int`, modelled as `Int`.  The Python standard-library calls that
the verified code makes (`json.loads`, the HTTP client, the sqlite token
store, wall-clock time) are modelled as explicit environment parameters,
as documented at each definition.
-/

namespace Aq2Api

/-! ### FragmentExtractor: `extract_json_from_buffer` (src/main.py lines 441-482)

The Python function scans `buffer` from the first occurrence of
`start_pattern`, tracking `depth` (int), `in_string` (bool) and
`escape_next` (bool), and returns `(buffer[start:i+1], buffer[i+1:])` at
the first `}` outside a string that brings `depth` to zero, or
`(None, buffer)` otherwise. -/

/-- Scanner state of `extract_json_from_buffer`: `depth`, `in_string`,
`escape_next`. -/
structure ScanState where
  depth : Int
  inString : Bool
  escapeNext : Bool
deriving Repr, DecidableEq

/-- One character step of the scanner, mirroring the loop body of
`extract_json_from_buffer`: a pending escape consumes the character; a
backslash sets the escape flag; an unescaped quote toggles `in_string`;
outside a string `{` and `}` adjust `depth`. -/
def scanStep (st : ScanState) (c : Char) : ScanState :=
  if st.escapeNext then { st with escapeNext := false }
  else if c = '\\' then { st with escapeNext := true }
  else
    let inS := if c = '"' then !st.inString else st.inString
    if inS then { st with inString := inS }
    else if c = '{' then { st with inString := inS, depth := st.depth + 1 }
    else if c = '}' then { st with inString := inS, depth := st.depth - 1 }
    else { st with inString := inS }

/-- Folding the scanner over a character list. -/
def scanFold (st : ScanState) (l : List Char) : ScanState :=
  l.foldl scanStep st

/-- The scanner's initial state (`depth = 0`, `in_string = False`,
`escape_next = False`). -/
def initScan : ScanState := ⟨0, false, false⟩

/-- The scanning loop of `extract_json_from_buffer` from the marker
position on: returns the span up to and including the first `}` that is
met outside a string with no pending escape while `depth = 1` (so the
decrement makes the depth zero, the return condition of the Python
loop), together with the rest of the buffer; `none` when the loop runs
off the end of the buffer. -/
def extractScan (st : ScanState) : List Char → Option (List Char × List Char)
  | [] => none
  | c :: rest =>
    if st.escapeNext = false ∧ st.inString = false ∧ c = '}' ∧ st.depth = 1 then
      some ([c], rest)
    else
      (extractScan (scanStep st c) rest).map (fun p => (c :: p.1, p.2))

/-- Python `haystack.find(needle)` returning the first match index, or
`none` for `-1`. -/
def findSub : List Char → List Char → Option Nat
  | [], pat => if pat.isPrefixOf [] then some 0 else none
  | c :: t, pat =>
    if pat.isPrefixOf (c :: t) then some 0
    else (findSub t pat).map (· + 1)

/-- `extract_json_from_buffer(buffer, start_pattern)`: find the marker,
scan from it, and return `(json_str, remaining_buffer)` on success or
`(None, buffer)` when the marker is absent or no complete object has
arrived yet. -/
def extract_json_from_buffer (buffer : List Char) (startPat : List Char) :
    Option (List Char) × List Char :=
  match findSub buffer startPat with
  | none => (none, buffer)
  | some start =>
    match extractScan initScan (buffer.drop start) with
    | none => (none, buffer)
    | some (span, rest) => (some span, rest)

/-- The default start marker, the literal `{"content":`. -/
def startPattern : List Char :=
  ['{', '"', 'c', 'o', 'n', 't', 'e', 'n', 't', '"', ':']

/-- The concrete upstream fragment `{"content": "hi"}`, used as a test input. -/
def jsonHi : List Char := "\x7b\"content\": \"hi\"\x7d".toList

/-! ### StreamReassembler: the extraction loops of `parse_event_stream`
(lines 508-540) and `generate` (lines 833-866)

Both loops call `extract_json_from_buffer` repeatedly until it returns
absent.  Each successful extraction strictly shrinks the buffer, so the
loop is modelled with a fuel argument set to `length + 1`, which is
provably sufficient (`drainFuel_congr`). -/

/-- Fueled version of the repeated-extraction loop: collects the
extracted spans in order and returns the leftover buffer. -/
def drainFuel : Nat → List Char → List (List Char) × List Char
  | 0, buf => ([], buf)
  | fuel + 1, buf =>
    match extract_json_from_buffer buf startPattern with
    | (none, _) => ([], buf)
    | (some span, rem) => (span :: (drainFuel fuel rem).1, (drainFuel fuel rem).2)

/-- The repeated-extraction loop (`while True: ... extract ... if None: break`). -/
def drain (buf : List Char) : List (List Char) × List Char :=
  drainFuel (buf.length + 1) buf

/-- The buffer-overflow guard of `generate` (line 839-841):
`buffer = buffer[-BUFFER_MAX_SIZE:]` when the length exceeds the limit.
Python's `buffer[-0:]` is the whole buffer, hence the zero case. -/
def truncate (maxSize : Nat) (b : List Char) : List Char :=
  if maxSize < b.length then
    (if maxSize = 0 then b else b.drop (b.length - maxSize))
  else b

/-- The chunk-arrival loop of `generate` (lines 833-866): for each
non-empty chunk, append it to the buffer, apply the overflow guard, then
extract spans until absent.  Returns all spans extracted, in order, and
the final leftover buffer. -/
def feedChunks (maxSize : Nat) : List Char → List (List Char) → List (List Char) × List Char
  | buf, [] => ([], buf)
  | buf, ch :: rest =>
    if ch.isEmpty then feedChunks maxSize buf rest
    else
      ((drain (truncate maxSize (buf ++ ch))).1
         ++ (feedChunks maxSize (drain (truncate maxSize (buf ++ ch))).2 rest).1,
       (feedChunks maxSize (drain (truncate maxSize (buf ++ ch))).2 rest).2)

/-- Result of `json.loads` on an extracted span, as consumed by the two
code paths.  `json.loads` is a Python standard-library call (out of
scope per the spec), so it is modelled as an abstract decoder shared by
both paths: `fail` is a `json.JSONDecodeError`, `noContent` a parsed
object without a `content` key, `contentStr s` a parsed object whose
`content` value is the string `s`, and `contentOther` a parsed object
whose `content` value is not a string. -/
inductive DecodeResult where
  | fail
  | noContent
  | contentStr (s : List Char)
  | contentOther
deriving Repr, DecidableEq

/-- The fragments emitted by the streaming loop of `generate` (lines
849-866): a chunk is yielded whenever the parsed object has a `content`
key, whatever the value's type (`if 'content' in obj`).  `some s` is a
fragment whose content is the string `s`; `none` is a fragment whose
content value is not a string. -/
def streamEmitted (decode : List Char → DecodeResult) (spans : List (List Char)) :
    List (Option (List Char)) :=
  spans.filterMap (fun sp =>
    match decode sp with
    | .contentStr s => some (some s)
    | .contentOther => some none
    | _ => none)

/-- A decoder that fails on every span (`json.loads` never succeeds). -/
def decodeNone : List Char → DecodeResult := fun _ => .fail

/-- A decoder defined exactly on the test span `{"content": "hi"}`. -/
def decodeHi : List Char → DecodeResult :=
  fun sp => if sp = jsonHi then .contentStr ['h', 'i'] else .fail

/-- First half of the test span, for a two-chunk split. -/
def jsonHiA : List Char := jsonHi.take 7

/-- Second half of the test span. -/
def jsonHiB : List Char := jsonHi.drop 7

/-! ### `OpenAIConverter.parse_event_stream` (lines 508-540) -/

/-- Characters removed by Python's `str.strip()` (ASCII whitespace). -/
def isPySpace (c : Char) : Bool :=
  c = ' ' ∨ c = '\t' ∨ c = '\n' ∨ c = '\r' ∨ c = '\x0b' ∨ c = '\x0c'

/-- Python `line.strip()`. -/
def pyStrip (s : List Char) : List Char :=
  ((s.dropWhile isPySpace).reverse.dropWhile isPySpace).reverse

/-- Helper for `splitLines`: accumulates the current line (reversed). -/
def splitLinesAux : List Char → List Char → List (List Char)
  | acc, [] => if acc.isEmpty then [] else [acc.reverse]
  | acc, '\r' :: '\n' :: rest => acc.reverse :: splitLinesAux [] rest
  | acc, '\n' :: rest => acc.reverse :: splitLinesAux [] rest
  | acc, '\r' :: rest => acc.reverse :: splitLinesAux [] rest
  | acc, c :: rest => splitLinesAux (c :: acc) rest

/-- Python `str.splitlines()` restricted to the line boundaries that
occur in event-stream bodies (`\n`, `\r\n`, `\r`); no terminal empty
line is produced for a trailing newline. -/
def splitLines (s : List Char) : List (List Char) :=
  splitLinesAux [] s

/-- The per-line filter of the `parse_event_stream` fallback: drop lines
that strip to empty or start with the `:` sentinel, keep the stripped
line otherwise. -/
def keepLine (line : List Char) : Option (List Char) :=
  match pyStrip line with
  | [] => none
  | c :: cs => if c = ':' then none else some (c :: cs)

/-- The fallback of `parse_event_stream` (lines 533-540): strip framing
and header lines and join the remaining stripped lines with newlines. -/
def fallbackLines (body : List Char) : List Char :=
  List.intercalate ['\n'] ((splitLines body).filterMap keepLine)

/-- The content strings collected by `parse_event_stream`'s main loop:
only parsed objects whose `content` value is a string contribute
(`if isinstance(text, str)`). -/
def contentTexts (decode : List Char → DecodeResult) (spans : List (List Char)) :
    List (List Char) :=
  spans.filterMap (fun sp =>
    match decode sp with
    | .contentStr s => some s
    | _ => none)

/-- `OpenAIConverter.parse_event_stream`: drain the whole body, join the
string contents if any were found, otherwise fall back to joining the
stripped printable lines. -/
def parse_event_stream (decode : List Char → DecodeResult) (body : List Char) : List Char :=
  if (contentTexts decode (drain body).1).isEmpty then fallbackLines body
  else (contentTexts decode (drain body).1).flatten

/-! ### Streaming-mode detection: `_normalize_stream_flag` (lines
111-135) and the decision chain of `_handle_chat_request` (lines
728-761) -/

/-- A Python value as inspected by `_normalize_stream_flag`.  A dict is
modelled by the five keys the function consults (`type`, `mode`,
`format`, `value`, `enabled`), in that order; an absent key and a key
set to Python `None` behave identically there (neither yields a flag),
so absence is encoded as `pynone`.  `pyother` is any other object,
carrying its Python truthiness (the function ends in `bool(value)`). -/
inductive PyVal where
  | pynone : PyVal
  | pybool : Bool → PyVal
  | pynum : Int → PyVal
  | pystr : List Char → PyVal
  | pydict : PyVal → PyVal → PyVal → PyVal → PyVal → PyVal
  | pyother : Bool → PyVal
deriving Repr, DecidableEq

/-- The string literals `_normalize_stream_flag` treats as true. -/
def trueWords : List (List Char) :=
  [("true").toList, ("1").toList, ("yes").toList, ("on").toList,
   ("sse").toList, ("stream").toList, ("delta").toList]

/-- The string literals `_normalize_stream_flag` treats as false. -/
def falseWords : List (List Char) :=
  [("false").toList, ("0").toList, ("no").toList, ("off").toList]

/-- `_normalize_stream_flag`: best-effort conversion of a request value
into a definite streaming boolean, or `none` when indefinite.  Numbers
map to their truthiness, strings are stripped, lowercased and matched
against the accepted words, dicts are probed at the five keys in order,
and any other object maps to its truthiness. -/
def normalizeStreamFlag : PyVal → Option Bool
  | .pynone => none
  | .pybool b => some b
  | .pynum n => some (decide (n ≠ 0))
  | .pystr s =>
    match (pyStrip s).map Char.toLower with
    | [] => none
    | c :: cs =>
      if (c :: cs) ∈ trueWords then some true
      else if (c :: cs) ∈ falseWords then some false
      else none
  | .pydict t m f v e =>
    match normalizeStreamFlag t with
    | some b => some b
    | none =>
      match normalizeStreamFlag m with
      | some b => some b
      | none =>
        match normalizeStreamFlag f with
        | some b => some b
        | none =>
          match normalizeStreamFlag v with
          | some b => some b
          | none => normalizeStreamFlag e
  | .pyother t => some t

/-- Python `a or b` on optional strings: `None` and the empty string are
falsy. -/
def pyOrStr (a : Option (List Char)) (d : List Char) : List Char :=
  match a with
  | none => d
  | some s => if s.isEmpty then d else s

/-- Python `needle in haystack` for strings. -/
def containsSub (hay pat : List Char) : Bool :=
  (findSub hay pat).isSome

/-- The `STREAMING_USER_AGENT_HINTS` constant (lines 150-159). -/
def streamingUserAgentHints : List (List Char) :=
  [("claudecode").toList, ("claude code").toList, ("claude-code").toList,
   ("anthropic/ide").toList, ("anthropic-ide").toList, ("anthropic-client").toList,
   ("amazon q developer").toList, ("amazonq-ide").toList]

/-- The `Accept` header substring consulted in step 4. -/
def eventStreamWord : List Char := ("text/event-stream").toList

/-- The per-request inputs consulted by the streaming-mode decision.
Header values are `Option` because Flask's `headers.get` returns `None`
for a missing header; the body fields are the raw JSON values. -/
structure ChatRequest where
  bodyStream : PyVal
  queryStream : Option (List Char)
  responseMode : PyVal
  responseModeCamel : PyVal
  responseFormat : PyVal
  responseFormatCamel : PyVal
  isAnthropic : Bool
  acceptHeader : List Char
  userAgent : Option (List Char)
  xClientApp : Option (List Char)
  xAppName : Option (List Char)
  xRequestClient : Option (List Char)
deriving Repr, DecidableEq

/-- Steps (1)-(4) of the decision chain (lines 728-742): the explicit
body field, then the query parameter, then the four alternate body
fields, then the protocol default (Anthropic requests stream by default;
otherwise an `Accept: text/event-stream` header turns streaming on). -/
def firstFourSignals (r : ChatRequest) : Option Bool :=
  match normalizeStreamFlag r.bodyStream with
  | some b => some b
  | none =>
    match normalizeStreamFlag (match r.queryStream with
                               | none => PyVal.pynone
                               | some s => PyVal.pystr s) with
    | some b => some b
    | none =>
      match normalizeStreamFlag r.responseMode with
      | some b => some b
      | none =>
        match normalizeStreamFlag r.responseModeCamel with
        | some b => some b
        | none =>
          match normalizeStreamFlag r.responseFormat with
          | some b => some b
          | none =>
            match normalizeStreamFlag r.responseFormatCamel with
            | some b => some b
            | none =>
              if r.isAnthropic then some true
              else if ¬ r.acceptHeader.isEmpty
                  ∧ containsSub (r.acceptHeader.map Char.toLower) eventStreamWord then
                some true
              else none

/-- Step (5), lines 744-758: lowercase the `User-Agent` header and the
first non-empty custom client-name header, join them with a space,
strip, and look for any known streaming-client hint as a substring. -/
def sniffMatches (r : ChatRequest) : Bool :=
  let ua := (pyOrStr r.userAgent []).map Char.toLower
  let cn := (pyOrStr r.xClientApp
    (pyOrStr r.xAppName (pyOrStr r.xRequestClient []))).map Char.toLower
  let haystack := pyStrip (ua ++ ' ' :: cn)
  ¬ haystack.isEmpty ∧ streamingUserAgentHints.any (fun hint => containsSub haystack hint)

/-- The full streaming-mode decision of `_handle_chat_request`: steps
(1)-(4), then — whenever the decision so far is `None` **or** `False`
(line 744: `if stream is None or stream is False`) — user-agent
sniffing, which can only set the decision to `True`; finally a default
of `False`. -/
def determineStream (r : ChatRequest) : Bool :=
  match
    (match firstFourSignals r with
     | some true => some true
     | some false => if sniffMatches r then some true else some false
     | none => if sniffMatches r then some true else none)
  with
  | some b => b
  | none => false

/-- Concrete request showing the sniffing override: the body says
`stream: false`, but the `User-Agent` is `claudecode`. -/
def cexRequest : ChatRequest :=
  { bodyStream := .pybool false
    queryStream := none
    responseMode := .pynone
    responseModeCamel := .pynone
    responseFormat := .pynone
    responseFormatCamel := .pynone
    isAnthropic := false
    acceptHeader := []
    userAgent := some (("claudecode").toList)
    xClientApp := none
    xAppName := none
    xRequestClient := none }

/-- Concrete request with an explicit `stream: true` body field. -/
def witRequest : ChatRequest :=
  { cexRequest with bodyStream := .pybool true, userAgent := none }

/-! ### AmazonQAuthManager (lines 162-308) and AmazonQClient.send_message
(lines 346-438)

The sqlite CLI database, the OAuth endpoint and the wall clock are
external; they are modelled as a `RefreshEnv` record.  The credential
file mirrors the in-memory `self.credentials` dict, so persistence is
the `creds` field of the state. -/

/-- Python truthiness of an optional string: `None` and `""` are falsy. -/
def pyTruthy (o : Option (List Char)) : Bool :=
  match o with
  | none => false
  | some s => ¬ s.isEmpty

/-- Python `a or b` on two optional strings (used for the
snake_case/camelCase credential aliases at lines 254-256). -/
def pyOrOpt (a b : Option (List Char)) : Option (List Char) :=
  if pyTruthy a then a else b

/-- The credentials dict: the snake_case and camelCase spellings are
distinct keys (line 249 checks only `refresh_token`, lines 254-256 try
both spellings). -/
structure Credentials where
  refreshTokenSnake : Option (List Char)
  refreshTokenCamel : Option (List Char)
  clientIdSnake : Option (List Char)
  clientIdCamel : Option (List Char)
  clientSecretSnake : Option (List Char)
  clientSecretCamel : Option (List Char)
  accessToken : Option (List Char)
  profileArn : Option (List Char)
deriving Repr, DecidableEq

/-- The mutable token state of `AmazonQAuthManager`: the cached
`access_token`, the `token_expiry` timestamp (an integer clock), and the
credentials dict (which is also what gets persisted to disk). -/
structure AuthState where
  accessToken : Option (List Char)
  tokenExpiry : Option Int
  creds : Credentials
deriving Repr, DecidableEq

/-- The external world of a refresh: what the Amazon Q CLI sqlite
database yields (`some (accessToken, optional refreshToken)` when the
row exists with a truthy `access_token`, `none` on any failure path of
`_extract_token_from_cli_db`), what the OAuth endpoint answers
(`some (accessToken, expiresIn)` on HTTP success, `none` for a
transport/HTTP error), and the current time. -/
structure RefreshEnv where
  cliToken : Option (List Char × Option (List Char))
  oauthGrant : Option (List Char × Int)
  now : Int
deriving Repr, DecidableEq

/-- `TOKEN_REFRESH_MARGIN` (config default 300 seconds). -/
def tokenRefreshMargin : Int := 300

/-- Failure modes of `_refresh_access_token`: `configError` is the
`ValueError` for missing credential fields, `refreshError` the
re-raised `requests` exception of the OAuth POST. -/
inductive AuthError where
  | configError
  | refreshError
deriving Repr, DecidableEq

/-- Result of a refresh or token lookup. -/
inductive RefreshResult where
  | ok (token : List Char)
  | err (e : AuthError)
deriving Repr, DecidableEq

/-- `_extract_token_from_cli_db` (lines 191-239): on success, adopt the
token into `access_token` and `credentials['access_token']`, update
`credentials['refresh_token']` when the row carries a truthy one, and
persist; on any failure, return `False` with the state untouched. -/
def extractTokenFromCliDb (env : RefreshEnv) (st : AuthState) : Bool × AuthState :=
  match env.cliToken with
  | none => (false, st)
  | some (tok, ort) =>
    (true,
     { st with
       accessToken := some tok,
       creds := { st.creds with
                  accessToken := some tok,
                  refreshTokenSnake :=
                    match ort with
                    | some rt => if rt.isEmpty then st.creds.refreshTokenSnake else some rt
                    | none => st.creds.refreshTokenSnake } })

/-- Outcome of `_refresh_access_token`: result, post-state, and how many
OAuth POSTs were issued. -/
structure RefreshOutcome where
  result : RefreshResult
  state : AuthState
  oauthPosts : Nat
deriving Repr, DecidableEq

/-- `_refresh_access_token` (lines 241-300): try the CLI database first
and return its token with no OAuth call; otherwise require
`refresh_token` (snake_case only, line 249) and the alias-resolved
client credentials, then POST the refresh grant: a failing POST
re-raises with the state untouched, a successful one caches the token,
sets `token_expiry = now + (expiresIn - margin)` and persists. -/
def refreshAccessToken (env : RefreshEnv) (st : AuthState) : RefreshOutcome :=
  match extractTokenFromCliDb env st with
  | (true, st1) =>
    { result := .ok (st1.accessToken.getD []), state := st1, oauthPosts := 0 }
  | (false, st1) =>
    if ¬ pyTruthy st1.creds.refreshTokenSnake then
      { result := .err .configError, state := st1, oauthPosts := 0 }
    else if ¬ (pyTruthy (pyOrOpt st1.creds.clientIdSnake st1.creds.clientIdCamel)
          ∧ pyTruthy (pyOrOpt st1.creds.clientSecretSnake st1.creds.clientSecretCamel)
          ∧ pyTruthy (pyOrOpt st1.creds.refreshTokenSnake st1.creds.refreshTokenCamel)) then
      { result := .err .configError, state := st1, oauthPosts := 0 }
    else
      match env.oauthGrant with
      | none => { result := .err .refreshError, state := st1, oauthPosts := 1 }
      | some (tok, expiresIn) =>
        { result := .ok tok,
          state := { st1 with
            accessToken := some tok,
            tokenExpiry := some (env.now + (expiresIn - tokenRefreshMargin)),
            creds := { st1.creds with accessToken := some tok } },
          oauthPosts := 1 }

/-- The refresh condition of `get_access_token` (line 305):
`not self.access_token or (self.token_expiry and now >= self.token_expiry)`. -/
def needsRefresh (env : RefreshEnv) (st : AuthState) : Bool :=
  !(pyTruthy st.accessToken)
    || (match st.tokenExpiry with
        | some e => decide (e ≤ env.now)
        | none => false)

/-- Outcome of `get_access_token`: result, post-state, number of
`_refresh_access_token` invocations, number of OAuth POSTs. -/
structure TokenOutcome where
  result : RefreshResult
  state : AuthState
  refreshCalls : Nat
  oauthPosts : Nat
deriving Repr, DecidableEq

/-- `get_access_token` (lines 302-308): refresh when the token is absent
or expired, otherwise return the cached token unchanged. -/
def getAccessToken (env : RefreshEnv) (st : AuthState) : TokenOutcome :=
  if needsRefresh env st then
    { result := (refreshAccessToken env st).result,
      state := (refreshAccessToken env st).state,
      refreshCalls := 1,
      oauthPosts := (refreshAccessToken env st).oauthPosts }
  else
    { result := .ok (st.accessToken.getD []), state := st,
      refreshCalls := 0, oauthPosts := 0 }

/-- The HTTP statuses the chat endpoint answers with on the first and
(if any) retried POST. -/
structure PostEnv where
  firstStatus : Nat
  retryStatus : Nat
deriving Repr, DecidableEq

/-- How `send_message` ends: a successful response, an HTTP error from
`raise_for_status`, or an auth-refresh exception raised before the first
POST. -/
inductive SendOutcome where
  | ok (status : Nat)
  | httpError (status : Nat)
  | authError (e : AuthError)
deriving Repr, DecidableEq

/-- Trace of a `send_message` call: the bearer token attached to each
POST actually issued, in order, the number of `_refresh_access_token`
invocations, the outcome, and the final auth state. -/
structure SendResult where
  postTokens : List (List Char)
  refreshCalls : Nat
  outcome : SendOutcome
  state : AuthState
deriving Repr, DecidableEq

/-- `AmazonQClient.send_message` (lines 346-438): build headers via
`get_access_token`, POST once; on a 403 with `retry_on_auth_error`, run
one `_refresh_access_token` cycle, rebuild headers and POST exactly once
more (the inner `try` swallows refresh failures, after which
`raise_for_status` surfaces the first 403); finally `raise_for_status`
on the latest response.  Statuses at or above 400 raise. -/
def send_message (env : RefreshEnv) (penv : PostEnv) (st : AuthState)
    (retryOnAuthError : Bool) : SendResult :=
  match (getAccessToken env st).result with
  | .err e =>
    { postTokens := [], refreshCalls := (getAccessToken env st).refreshCalls,
      outcome := .authError e, state := (getAccessToken env st).state }
  | .ok tok0 =>
    if penv.firstStatus = 403 ∧ retryOnAuthError then
      match (refreshAccessToken env (getAccessToken env st).state).result with
      | .err _ =>
        { postTokens := [tok0],
          refreshCalls := (getAccessToken env st).refreshCalls + 1,
          outcome := .httpError penv.firstStatus,
          state := (refreshAccessToken env (getAccessToken env st).state).state }
      | .ok _ =>
        match (getAccessToken env
            (refreshAccessToken env (getAccessToken env st).state).state).result with
        | .err _ =>
          { postTokens := [tok0],
            refreshCalls := (getAccessToken env st).refreshCalls + 1
              + (getAccessToken env
                  (refreshAccessToken env (getAccessToken env st).state).state).refreshCalls,
            outcome := .httpError penv.firstStatus,
            state := (getAccessToken env
              (refreshAccessToken env (getAccessToken env st).state).state).state }
        | .ok tok1 =>
          { postTokens := [tok0, tok1],
            refreshCalls := (getAccessToken env st).refreshCalls + 1
              + (getAccessToken env
                  (refreshAccessToken env (getAccessToken env st).state).state).refreshCalls,
            outcome := if 400 ≤ penv.retryStatus then .httpError penv.retryStatus
                       else .ok penv.retryStatus,
            state := (getAccessToken env
              (refreshAccessToken env (getAccessToken env st).state).state).state }
    else
      { postTokens := [tok0], refreshCalls := (getAccessToken env st).refreshCalls,
        outcome := if 400 ≤ penv.firstStatus then .httpError penv.firstStatus
                   else .ok penv.firstStatus,
        state := (getAccessToken env st).state }

/-- The empty credentials dict. -/
def emptyCreds : Credentials :=
  { refreshTokenSnake := none, refreshTokenCamel := none,
    clientIdSnake := none, clientIdCamel := none,
    clientSecretSnake := none, clientSecretCamel := none,
    accessToken := none, profileArn := none }

/-- Environment for the C6 counterexample: the CLI database has a fresh
token, the clock is past a previously recorded expiry. -/
def cexRefreshEnv : RefreshEnv :=
  { cliToken := some (("newtok").toList, none), oauthGrant := none, now := 10 }

/-- State for the C6 counterexample: a stale expiry (5 < now = 10) left
over from an earlier OAuth refresh. -/
def cexAuthState : AuthState :=
  { accessToken := some (("oldtok").toList), tokenExpiry := some 5, creds := emptyCreds }

/-- A valid cached state for the C5 witness. -/
def witAuthState : AuthState :=
  { accessToken := some (("tok0").toList), tokenExpiry := none, creds := emptyCreds }

/-- Environment for the C5 witness: the CLI source answers with a fresh
token. -/
def witRefreshEnv : RefreshEnv :=
  { cliToken := some (("tok1").toList, none), oauthGrant := none, now := 0 }

/-- Statuses for the C5 witness: 403 on the first POST, 500 on the
retried POST. -/
def witPostEnv : PostEnv := { firstStatus := 403, retryStatus := 500 }

/-- Environment for the C7 witness: no CLI database, OAuth endpoint
failing. -/
def witRefreshEnv7 : RefreshEnv :=
  { cliToken := none, oauthGrant := none, now := 0 }

/-- State for the C7 witness: full credentials and a previously cached
token with its expiry. -/
def witAuthState7 : AuthState :=
  { accessToken := some (("cached-token").toList), tokenExpiry := some 99,
    creds := { emptyCreds with
               refreshTokenSnake := some (("rt").toList),
               clientIdSnake := some (("cid").toList),
               clientSecretSnake := some (("cs").toList) } }

/-- Credential states for the C9 witness: same shape, different secret
strings. -/
def wStatusState1 : AuthState :=
  { accessToken := some (("secret-a").toList), tokenExpiry := some 77,
    creds := { emptyCreds with refreshTokenSnake := some (("rt-a").toList) } }

/-- Second C9 witness state, differing only in the secret values. -/
def wStatusState2 : AuthState :=
  { accessToken := some (("secret-b").toList), tokenExpiry := some 77,
    creds := { emptyCreds with refreshTokenSnake := some (("rt-bbb").toList) } }

/-! ### GET /credentials (lines 1034-1044) -/

/-- The JSON body of `GET /credentials`: two booleans and the expiry
timestamp (rendered with `isoformat()`, which is injective, so the
timestamp value is carried directly). -/
structure CredStatus where
  hasCredentials : Bool
  hasAccessToken : Bool
  tokenExpiry : Option Int
deriving Repr, DecidableEq

/-- `get_credentials_status`:
`bool(credentials.get('refresh_token'))`, `bool(access_token)`, and the
expiry (or null). -/
def get_credentials_status (st : AuthState) : CredStatus :=
  { hasCredentials := pyTruthy st.creds.refreshTokenSnake,
    hasAccessToken := pyTruthy st.accessToken,
    tokenExpiry := st.tokenExpiry }

/-! ### Model-id resolution in `_handle_chat_request` (lines 779-793) -/

/-- The literal `claude-sonnet-4.5`. -/
def modelSonnet45 : List Char := ("claude-sonnet-4.5").toList

/-- The literal `claude-sonnet-4`. -/
def modelSonnet4 : List Char := ("claude-sonnet-4").toList

/-- The literal `amazon-q`. -/
def modelAmazonQ : List Char := ("amazon-q").toList

/-- The model-id mapping of `_handle_chat_request`: `model_id` defaults
to `claude-sonnet-4.5`; within the allow-list, only the two Claude names
are mapped explicitly (`amazon-q` falls through to the default), and
anything outside the list keeps the default.  No branch rejects. -/
def resolveModelId (model : List Char) : List Char :=
  if model = modelSonnet45 ∨ model = modelSonnet4 ∨ model = modelAmazonQ then
    if model = modelSonnet45 then modelSonnet45
    else if model = modelSonnet4 then modelSonnet4
    else modelSonnet45
  else modelSonnet45

/-! ### The SSE emission order of `generate` (lines 809-909) -/

/-- One element yielded by the OpenAI-format stream: the opening
assistant-role chunk, a content delta (`some s` for a string fragment,
`none` for a non-string `content` value, which `json.dumps` emits
happily), the `finish_reason=stop` chunk, the `data: [DONE]` sentinel
line, or the error chunk of the `except` handler. -/
inductive OaiEvent where
  | roleChunk
  | contentChunk (v : Option (List Char))
  | finishChunk
  | doneLine
  | errorChunk
deriving Repr, DecidableEq

/-- One element yielded by the Anthropic-format stream, named by its
`event:` tag; `messageStop` carries the accumulated final text embedded
in its payload. -/
inductive AnthEvent where
  | messageStart
  | contentBlockStart
  | contentBlockDelta (v : Option (List Char))
  | contentBlockStop
  | messageDelta
  | messageStop (finalText : List Char)
  | errorChunk
deriving Repr, DecidableEq

/-- `generate` in OpenAI mode: the start chunk, one content chunk per
emitted fragment, then — unless the upstream transport raised after
delivering its chunks (`transportError`), in which case the `except`
handler yields a single error chunk — the terminal chunk and the
sentinel line. -/
def generate_openai (decode : List Char → DecodeResult) (maxSize : Nat)
    (chunks : List (List Char)) (transportError : Bool) : List OaiEvent :=
  if transportError then
    OaiEvent.roleChunk
      :: (streamEmitted decode (feedChunks maxSize [] chunks).1).map OaiEvent.contentChunk
      ++ [OaiEvent.errorChunk]
  else
    OaiEvent.roleChunk
      :: (streamEmitted decode (feedChunks maxSize [] chunks).1).map OaiEvent.contentChunk
      ++ [OaiEvent.finishChunk, OaiEvent.doneLine]

/-- `generate` in Anthropic mode.  A transport error after the delivered
chunks — or a non-string accumulated fragment, over which the final
`"".join(accumulated_content)` raises `TypeError` — lands in the
`except` handler, which yields a single error chunk in place of the
terminal events. -/
def generate_anthropic (decode : List Char → DecodeResult) (maxSize : Nat)
    (chunks : List (List Char)) (transportError : Bool) : List AnthEvent :=
  if transportError ∨ ((streamEmitted decode (feedChunks maxSize [] chunks).1).any
      (fun v => v.isNone)) then
    AnthEvent.messageStart :: AnthEvent.contentBlockStart
      :: (streamEmitted decode (feedChunks maxSize [] chunks).1).map AnthEvent.contentBlockDelta
      ++ [AnthEvent.errorChunk]
  else
    AnthEvent.messageStart :: AnthEvent.contentBlockStart
      :: (streamEmitted decode (feedChunks maxSize [] chunks).1).map AnthEvent.contentBlockDelta
      ++ [AnthEvent.contentBlockStop, AnthEvent.messageDelta,
          AnthEvent.messageStop
            ((streamEmitted decode (feedChunks maxSize [] chunks).1).filterMap id).flatten]

/-- Recogniser for the `message_start` event. -/
def isMessageStart : AnthEvent → Bool
  | .messageStart => true
  | _ => false

/-- Recogniser for the `message_stop` event. -/
def isMessageStop : AnthEvent → Bool
  | .messageStop _ => true
  | _ => false

theorem scanFold_nil (st : ScanState) : scanFold st [] = st := rfl

theorem scanFold_cons (st : ScanState) (c : Char) (l : List Char) :
    scanFold st (c :: l) = scanFold (scanStep st c) l := rfl

theorem scanFold_append (st : ScanState) (a b : List Char) :
    scanFold st (a ++ b) = scanFold (scanFold st a) b :=
  List.foldl_append scanStep st a b

/-- Soundness of the scanning loop: a returned span is exactly the
consumed prefix, it ends in the closing brace, and the scanner state
just before that closing brace is `depth = 1`, not in a string, no
pending escape. -/
theorem extractScan_sound (l : List Char) : ∀ (st : ScanState) (span rest : List Char),
    extractScan st l = some (span, rest) →
    l = span ++ rest ∧
    ∃ body, span = body ++ ['}'] ∧ scanFold st body = ⟨1, false, false⟩ := by
  induction l with
  | nil => intro st span rest h; simp [extractScan] at h
  | cons c t ih =>
    intro st span rest h
    rw [extractScan] at h
    split at h
    · rename_i hg
      obtain ⟨he, hi, hc, hd⟩ := hg
      simp only [Option.some.injEq, Prod.mk.injEq] at h
      obtain ⟨h1, h2⟩ := h
      subst h1; subst h2
      refine ⟨rfl, [], by simp [hc], ?_⟩
      cases st
      simp_all [scanFold]
    · rename_i hg
      cases hs : extractScan (scanStep st c) t with
      | none => rw [hs] at h; simp at h
      | some p =>
        obtain ⟨sp, rest'⟩ := p
        rw [hs] at h
        simp only [Option.map_some', Option.some.injEq, Prod.mk.injEq] at h
        obtain ⟨h1, h2⟩ := h
        subst h1; subst h2
        obtain ⟨hd, body, hb, hst⟩ := ih (scanStep st c) sp rest' hs
        refine ⟨by rw [hd]; rfl, c :: body, by rw [hb]; rfl, ?_⟩
        rw [scanFold_cons]
        exact hst

/-- Structure of a successful extraction: the buffer splits as
`pre ++ span ++ rem`, and the span is a brace-closed scan. -/
theorem extract_some_spec (buffer pat span rem : List Char)
    (h : extract_json_from_buffer buffer pat = (some span, rem)) :
    (∃ pre, buffer = pre ++ span ++ rem) ∧
    ∃ body, span = body ++ ['}'] ∧ scanFold initScan body = ⟨1, false, false⟩ := by
  unfold extract_json_from_buffer at h
  split at h
  · simp at h
  · rename_i start hf
    split at h
    · simp at h
    · rename_i sp rest hs
      simp only [Prod.mk.injEq, Option.some.injEq] at h
      obtain ⟨h1, h2⟩ := h
      subst h1; subst h2
      obtain ⟨hd, body, hb, hst⟩ := extractScan_sound _ _ _ _ hs
      refine ⟨⟨buffer.take start, ?_⟩, body, hb, hst⟩
      rw [List.append_assoc, ← hd]
      exact (List.take_append_drop start buffer).symm

/-- C1: whenever `extract_json_from_buffer` returns a span rather than
absent, the span has balanced braces — the scanner's depth returns to
zero exactly at the final character, having been positive (`depth = 1`)
just before it — the span does not end inside an open JSON string (the
final scanner state has `inString = false`, and no pending escape), and
the returned remainder is exactly the portion of the buffer after the
closing brace (`buffer = pre ++ span ++ rem`). -/
theorem extract_returns_balanced_span (buffer pat span rem : List Char)
    (h : extract_json_from_buffer buffer pat = (some span, rem)) :
    (∃ pre, buffer = pre ++ span ++ rem) ∧
    (∃ body, span = body ++ ['}'] ∧ scanFold initScan body = ⟨1, false, false⟩) ∧
    scanFold initScan span = initScan := by
  obtain ⟨hpre, body, hb, hst⟩ := extract_some_spec buffer pat span rem h
  refine ⟨hpre, ⟨body, hb, hst⟩, ?_⟩
  rw [hb, scanFold_append, hst]
  decide

theorem prefix_of_append_of_le {p b e : List Char} (h : p <+: b ++ e)
    (hl : p.length ≤ b.length) : p <+: b := by
  rw [List.prefix_iff_eq_take] at h ⊢
  rwa [List.take_append_of_le_length hl] at h

theorem findSub_bound : ∀ (b pat : List Char) (i : Nat),
    findSub b pat = some i → i + pat.length ≤ b.length := by
  intro b
  induction b with
  | nil =>
    intro pat i h
    rw [findSub] at h
    split at h
    · rename_i hp
      have : pat = [] := List.prefix_nil.mp (List.isPrefixOf_iff_prefix.mp hp)
      simp only [Option.some.injEq] at h
      simp [this, ← h]
    · simp at h
  | cons c t ih =>
    intro pat i h
    rw [findSub] at h
    split at h
    · rename_i hp
      simp only [Option.some.injEq] at h
      have := (List.isPrefixOf_iff_prefix.mp hp).length_le
      simp only [← h, Nat.zero_add]
      exact this
    · cases hf : findSub t pat with
      | none => rw [hf] at h; simp at h
      | some j =>
        rw [hf] at h
        simp only [Option.map_some', Option.some.injEq] at h
        have := ih pat j hf
        simp only [← h, List.length_cons]
        omega

theorem findSub_extend : ∀ (b e pat : List Char) (i : Nat),
    findSub b pat = some i → findSub (b ++ e) pat = some i := by
  intro b
  induction b with
  | nil =>
    intro e pat i h
    rw [findSub] at h
    split at h
    · rename_i hp
      have hpat : pat = [] := List.prefix_nil.mp (List.isPrefixOf_iff_prefix.mp hp)
      simp only [Option.some.injEq] at h
      subst hpat
      cases e with
      | nil => rw [List.nil_append, findSub]; simp [List.isPrefixOf, ← h]
      | cons x xs => rw [List.nil_append, findSub]; simp [List.isPrefixOf, ← h]
    · simp at h
  | cons c t ih =>
    intro e pat i h
    rw [findSub] at h
    split at h
    · rename_i hp
      simp only [Option.some.injEq] at h
      have hp' : pat.isPrefixOf (c :: (t ++ e)) := by
        rw [List.isPrefixOf_iff_prefix] at hp ⊢
        exact hp.trans (List.prefix_append _ _)
      rw [List.cons_append, findSub, if_pos hp']
      exact congrArg some h
    · rename_i hp
      cases hf : findSub t pat with
      | none => rw [hf] at h; simp at h
      | some j =>
        rw [hf] at h
        simp only [Option.map_some', Option.some.injEq] at h
        have hb := findSub_bound t pat j hf
        have hlen : pat.length ≤ (c :: t).length := by
          simp only [List.length_cons]; omega
        have hnp : ¬ pat.isPrefixOf (c :: (t ++ e)) := by
          intro hcon
          exact hp (List.isPrefixOf_iff_prefix.mpr
            (prefix_of_append_of_le (List.isPrefixOf_iff_prefix.mp hcon) hlen))
        rw [List.cons_append, findSub, if_neg hnp, ih e pat j hf]
        simp [← h]

theorem extractScan_extend : ∀ (l : List Char) (st : ScanState) (span rest e : List Char),
    extractScan st l = some (span, rest) →
    extractScan st (l ++ e) = some (span, rest ++ e) := by
  intro l
  induction l with
  | nil => intro st span rest e h; simp [extractScan] at h
  | cons c t ih =>
    intro st span rest e h
    rw [extractScan] at h
    rw [List.cons_append, extractScan]
    split at h
    · rename_i hg
      rw [if_pos hg]
      simp only [Option.some.injEq, Prod.mk.injEq] at h ⊢
      exact ⟨h.1, by rw [← h.2]⟩
    · rename_i hg
      rw [if_neg hg]
      cases hs : extractScan (scanStep st c) t with
      | none => rw [hs] at h; simp at h
      | some p =>
        obtain ⟨sp, r0⟩ := p
        rw [hs] at h
        simp only [Option.map_some', Option.some.injEq, Prod.mk.injEq] at h
        obtain ⟨h1, h2⟩ := h
        rw [ih _ _ _ e hs]
        simp [← h1, ← h2]

theorem extract_extend (b e pat span rem : List Char)
    (h : extract_json_from_buffer b pat = (some span, rem)) :
    extract_json_from_buffer (b ++ e) pat = (some span, rem ++ e) := by
  unfold extract_json_from_buffer at h
  split at h
  · simp at h
  · rename_i start hf
    split at h
    · simp at h
    · rename_i sp rest hs
      simp only [Prod.mk.injEq, Option.some.injEq] at h
      obtain ⟨h1, h2⟩ := h
      subst h1; subst h2
      have hstart : start ≤ b.length := by
        have := findSub_bound b pat start hf
        omega
      have hdrop : (b ++ e).drop start = b.drop start ++ e :=
        List.drop_append_of_le_length hstart
      have hred : extract_json_from_buffer (b ++ e) pat =
          match extractScan initScan ((b ++ e).drop start) with
          | none => (none, b ++ e)
          | some (span, rest) => (some span, rest) := by
        unfold extract_json_from_buffer
        rw [findSub_extend b e pat start hf]
      rw [hred, hdrop, extractScan_extend _ _ _ _ e hs]

theorem extract_none_eq (b pat r : List Char)
    (h : extract_json_from_buffer b pat = (none, r)) : r = b := by
  unfold extract_json_from_buffer at h
  split at h
  · simp only [Prod.mk.injEq] at h
    exact h.2.symm
  · split at h
    · simp only [Prod.mk.injEq] at h
      exact h.2.symm
    · simp at h

theorem extract_some_shrink (b pat span rem : List Char)
    (h : extract_json_from_buffer b pat = (some span, rem)) :
    rem.length < b.length := by
  obtain ⟨⟨pre, hpre⟩, body, hb, -⟩ := extract_some_spec b pat span rem h
  rw [hpre, hb]
  simp only [List.length_append, List.length_cons, List.length_nil]
  omega

theorem drainFuel_congr : ∀ (fuel fuel' : Nat) (buf : List Char),
    buf.length < fuel → buf.length < fuel' →
    drainFuel fuel buf = drainFuel fuel' buf := by
  intro fuel
  induction fuel with
  | zero => intro fuel' buf h1 h2; omega
  | succ f ih =>
    intro fuel' buf h1 h2
    cases fuel' with
    | zero => omega
    | succ f' =>
      simp only [drainFuel]
      cases hx : extract_json_from_buffer buf startPattern with
      | mk o r =>
        cases o with
        | none => rfl
        | some span =>
          have hlt := extract_some_shrink buf startPattern span r hx
          show (span :: (drainFuel f r).1, (drainFuel f r).2)
              = (span :: (drainFuel f' r).1, (drainFuel f' r).2)
          rw [ih f' r (by omega) (by omega)]

/-- One-step unfolding of `drain`. -/
theorem drain_eq (buf : List Char) :
    drain buf = match extract_json_from_buffer buf startPattern with
      | (none, _) => ([], buf)
      | (some span, rem) => (span :: (drain rem).1, (drain rem).2) := by
  unfold drain
  simp only [drainFuel]
  cases hx : extract_json_from_buffer buf startPattern with
  | mk o r =>
    cases o with
    | none => rfl
    | some span =>
      have hlt := extract_some_shrink buf startPattern span r hx
      show (span :: (drainFuel buf.length r).1, (drainFuel buf.length r).2)
          = (span :: (drainFuel (r.length + 1) r).1, (drainFuel (r.length + 1) r).2)
      rw [drainFuel_congr buf.length (r.length + 1) r (by omega) (by omega)]

theorem drain_append_aux : ∀ (n : Nat) (b e : List Char), b.length = n →
    drain (b ++ e) = ((drain b).1 ++ (drain ((drain b).2 ++ e)).1,
                      (drain ((drain b).2 ++ e)).2) := by
  intro n
  induction n using Nat.strong_induction_on with
  | _ n ih =>
    intro b e hn
    cases hx : extract_json_from_buffer b startPattern with
    | mk o r =>
      cases o with
      | none =>
        have hr : r = b := extract_none_eq b startPattern r hx
        subst hr
        have hb : drain r = ([], r) := by rw [drain_eq, hx]
        rw [hb]
        simp
      | some span =>
        have hb : drain b = (span :: (drain r).1, (drain r).2) := by rw [drain_eq, hx]
        have hext := extract_extend b e startPattern span r hx
        have hbe : drain (b ++ e) = (span :: (drain (r ++ e)).1, (drain (r ++ e)).2) := by
          rw [drain_eq, hext]
        have hlt := extract_some_shrink b startPattern span r hx
        have hih := ih r.length (by omega) r e rfl
        rw [hbe, hih, hb]
        simp

theorem drain_append (b e : List Char) :
    drain (b ++ e) = ((drain b).1 ++ (drain ((drain b).2 ++ e)).1,
                      (drain ((drain b).2 ++ e)).2) :=
  drain_append_aux b.length b e rfl

theorem drain_snd_no_extract_aux : ∀ (n : Nat) (b : List Char), b.length = n →
    extract_json_from_buffer (drain b).2 startPattern = (none, (drain b).2) := by
  intro n
  induction n using Nat.strong_induction_on with
  | _ n ih =>
    intro b hn
    cases hx : extract_json_from_buffer b startPattern with
    | mk o r =>
      cases o with
      | none =>
        have hr : r = b := extract_none_eq b startPattern r hx
        subst hr
        have hb : drain r = ([], r) := by rw [drain_eq, hx]
        rw [hb]
        exact hx
      | some span =>
        have hb : drain b = (span :: (drain r).1, (drain r).2) := by rw [drain_eq, hx]
        have hlt := extract_some_shrink b startPattern span r hx
        rw [hb]
        exact ih r.length (by omega) r rfl

theorem drain_snd_no_extract (b : List Char) :
    extract_json_from_buffer (drain b).2 startPattern = (none, (drain b).2) :=
  drain_snd_no_extract_aux b.length b rfl

theorem drain_snd_length_aux : ∀ (n : Nat) (b : List Char), b.length = n →
    (drain b).2.length ≤ b.length := by
  intro n
  induction n using Nat.strong_induction_on with
  | _ n ih =>
    intro b hn
    cases hx : extract_json_from_buffer b startPattern with
    | mk o r =>
      cases o with
      | none =>
        have hr : r = b := extract_none_eq b startPattern r hx
        subst hr
        have hb : drain r = ([], r) := by rw [drain_eq, hx]
        rw [hb]
      | some span =>
        have hb : drain b = (span :: (drain r).1, (drain r).2) := by rw [drain_eq, hx]
        have hlt := extract_some_shrink b startPattern span r hx
        rw [hb]
        have := ih r.length (by omega) r rfl
        show (drain r).2.length ≤ b.length
        omega

theorem drain_snd_length (b : List Char) : (drain b).2.length ≤ b.length :=
  drain_snd_length_aux b.length b rfl

/-- The chunk loop, run on a drained buffer that stays within the size
limit, behaves exactly like a single drain of the concatenation. -/
theorem feedChunks_drain : ∀ (chunks : List (List Char)) (maxSize : Nat) (buf : List Char),
    extract_json_from_buffer buf startPattern = (none, buf) →
    buf.length + chunks.flatten.length ≤ maxSize →
    feedChunks maxSize buf chunks = drain (buf ++ chunks.flatten) := by
  intro chunks
  induction chunks with
  | nil =>
    intro maxSize buf hb hlen
    rw [feedChunks, List.flatten_nil, List.append_nil, drain_eq, hb]
  | cons ch rest ih =>
    intro maxSize buf hb hlen
    rw [feedChunks]
    by_cases hch : ch.isEmpty
    · rw [if_pos hch]
      have hche : ch = [] := List.isEmpty_iff.mp hch
      subst hche
      rw [ih maxSize buf hb (by simpa using hlen)]
      simp
    · rw [if_neg hch]
      have hlen' : ¬ maxSize < (buf ++ ch).length := by
        simp only [List.flatten_cons, List.length_append] at hlen ⊢
        omega
      rw [truncate, if_neg hlen']
      have hd2 := drain_snd_no_extract (buf ++ ch)
      have hdl := drain_snd_length (buf ++ ch)
      have hlen2 : (drain (buf ++ ch)).2.length + rest.flatten.length ≤ maxSize := by
        simp only [List.flatten_cons, List.length_append] at hlen hdl ⊢
        omega
      rw [ih maxSize (drain (buf ++ ch)).2 hd2 hlen2]
      rw [List.flatten_cons, ← List.append_assoc, drain_append (buf ++ ch) rest.flatten]

/-- Feeding chunks into an initially empty buffer within the size limit
is a single drain of the concatenated body. -/
theorem feedChunks_from_nil (maxSize : Nat) (chunks : List (List Char)) (body : List Char)
    (hjoin : chunks.flatten = body) (hlen : body.length ≤ maxSize) :
    feedChunks maxSize [] chunks = drain body := by
  have hnil : extract_json_from_buffer [] startPattern = (none, []) := by decide
  have := feedChunks_drain chunks maxSize [] hnil (by simpa [hjoin] using hlen)
  rw [this, List.nil_append, hjoin]

/-- C2: splitting an upstream body across arbitrary chunk boundaries
yields the identical sequence of extracted spans — hence the identical
sequence of emitted fragment texts for any decoder, and the identical
final reassembled text — as feeding the body in a single chunk, provided
the body fits within the configured buffer limit (so the overflow guard
never fires). -/
theorem chunk_boundary_invariance (decode : List Char → DecodeResult)
    (maxSize : Nat) (chunks : List (List Char)) (body : List Char)
    (hjoin : chunks.flatten = body) (hlen : body.length ≤ maxSize) :
    streamEmitted decode (feedChunks maxSize [] chunks).1
      = streamEmitted decode (feedChunks maxSize [] [body]).1 ∧
    feedChunks maxSize [] chunks = feedChunks maxSize [] [body] := by
  have h1 : feedChunks maxSize [] chunks = drain body :=
    feedChunks_from_nil maxSize chunks body hjoin hlen
  have h2 : feedChunks maxSize [] [body] = drain body :=
    feedChunks_from_nil maxSize [body] body (by simp) hlen
  rw [h1, h2]
  exact ⟨rfl, rfl⟩

/-- C3 counterexample: for the upstream body `hello` (no extractable
fragment), the live-streaming path emits nothing, while the
non-streaming `parse_event_stream` falls back to joining the printable
lines and returns `hello` — so the two paths do not agree on every
upstream body. -/
theorem stream_concat_equals_parse_counterexample :
    ((streamEmitted decodeNone (feedChunks 10240 [] [("hello").toList]).1).filterMap id).flatten
      ≠ parse_event_stream decodeNone (("hello").toList) := by
  decide

/-- C3 amended: for every upstream body from which at least one fragment
with a string `content` value is extracted, and whose extracted objects
carry no non-string `content` values, the concatenation of all fragment
texts emitted by the streaming path equals the content string produced
by `parse_event_stream`; when no string fragment is extracted,
`parse_event_stream` instead returns the heuristic line-joined fallback
while the streaming path emits nothing. -/
theorem stream_concat_equals_parse (decode : List Char → DecodeResult)
    (maxSize : Nat) (chunks : List (List Char)) (body : List Char)
    (hjoin : chunks.flatten = body) (hlen : body.length ≤ maxSize)
    (hstr : ∀ sp ∈ (drain body).1, decode sp ≠ DecodeResult.contentOther)
    (hex : ∃ sp ∈ (drain body).1, ∃ s, decode sp = DecodeResult.contentStr s) :
    (∀ t ∈ streamEmitted decode (feedChunks maxSize [] chunks).1, t ≠ none) ∧
    ((streamEmitted decode (feedChunks maxSize [] chunks).1).filterMap id).flatten
      = parse_event_stream decode body := by
  rw [feedChunks_from_nil maxSize chunks body hjoin hlen]
  constructor
  · intro t ht
    rw [streamEmitted, List.mem_filterMap] at ht
    obtain ⟨sp, hsp, hmatch⟩ := ht
    cases hdec : decode sp with
    | fail => rw [hdec] at hmatch; simp at hmatch
    | noContent => rw [hdec] at hmatch; simp at hmatch
    | contentStr s =>
      rw [hdec] at hmatch
      simp only [Option.some.injEq] at hmatch
      rw [← hmatch]
      simp
    | contentOther => exact absurd hdec (hstr sp hsp)
  · have hft : (streamEmitted decode (drain body).1).filterMap id
        = contentTexts decode (drain body).1 := by
      rw [streamEmitted, contentTexts, List.filterMap_filterMap]
      congr 1
      funext sp
      cases decode sp <;> simp
    rw [hft, parse_event_stream]
    have hne : ¬ ((contentTexts decode (drain body).1).isEmpty = true) := by
      obtain ⟨sp, hsp, s, hdec⟩ := hex
      have hmem : s ∈ contentTexts decode (drain body).1 := by
        rw [contentTexts, List.mem_filterMap]
        exact ⟨sp, hsp, by rw [hdec]⟩
      intro hempty
      rw [List.isEmpty_iff] at hempty
      rw [hempty] at hmem
      exact absurd hmem (List.not_mem_nil s)
    rw [if_neg hne]

/-- Witness for C3 at the single-fragment body `{"content": "hi"}`. -/
theorem stream_concat_equals_parse_witness :
    (∀ t ∈ streamEmitted decodeHi (feedChunks 64 [] [jsonHi]).1, t ≠ none) ∧
    ((streamEmitted decodeHi (feedChunks 64 [] [jsonHi]).1).filterMap id).flatten
      = parse_event_stream decodeHi jsonHi :=
  stream_concat_equals_parse decodeHi 64 [jsonHi] jsonHi (by decide) (by decide)
    (by decide) ⟨jsonHi, by decide, ['h', 'i'], by decide⟩

/-- Witness for C2: the test fragment split in two versus fed whole. -/
theorem chunk_boundary_invariance_witness :
    streamEmitted decodeHi (feedChunks 64 [] [jsonHiA, jsonHiB]).1
      = streamEmitted decodeHi (feedChunks 64 [] [jsonHi]).1 ∧
    feedChunks 64 [] [jsonHiA, jsonHiB] = feedChunks 64 [] [jsonHi] :=
  chunk_boundary_invariance decodeHi 64 [jsonHiA, jsonHiB] jsonHi (by decide) (by decide)

/-- C4 counterexample: a request whose body carries the explicit
definite value `stream: false` is nevertheless switched to streaming by
step (5) when the `User-Agent` contains `claudecode` — the sniffing step
is consulted even though an earlier step yielded a definite boolean. -/
theorem stream_detection_priority_counterexample :
    normalizeStreamFlag cexRequest.bodyStream = some false ∧
    determineStream cexRequest = true := by
  decide

/-- C4 amended: steps (1)-(4) are consulted in the stated priority
order, each only if no earlier step yielded a definite boolean (in
particular an explicit definite body value settles steps (1)-(4));
however, user-agent/client-name sniffing (step 5) runs whenever the
decision so far is indefinite or `false` — including when the body
explicitly said `stream: false` — and can only force the decision to
`true`; the final default is `false`.  An explicit `stream: true` is
never changed. -/
theorem stream_detection_priority (r : ChatRequest) :
    determineStream r = ((firstFourSignals r == some true) || sniffMatches r) ∧
    (∀ b, normalizeStreamFlag r.bodyStream = some b → firstFourSignals r = some b) ∧
    (normalizeStreamFlag r.bodyStream = some true → determineStream r = true) := by
  have hchar : determineStream r = ((firstFourSignals r == some true) || sniffMatches r) := by
    cases h4 : firstFourSignals r with
    | none => cases hs : sniffMatches r <;> simp [determineStream, h4, hs]
    | some b => cases b <;> cases hs : sniffMatches r <;> simp [determineStream, h4, hs]
  have hprio : ∀ b, normalizeStreamFlag r.bodyStream = some b → firstFourSignals r = some b := by
    intro b hb
    rw [firstFourSignals, hb]
  refine ⟨hchar, hprio, ?_⟩
  intro hb
  rw [hchar, hprio true hb]
  rfl

/-- Witness for C4 at a request with an explicit `stream: true` body. -/
theorem stream_detection_priority_witness :
    determineStream witRequest = true :=
  (stream_detection_priority witRequest).2.2 (by decide)

/-- Witness for C1 at the concrete buffer `{"content": "hi"}t`. -/
theorem extract_returns_balanced_span_witness :
    extract_json_from_buffer (jsonHi ++ ['t']) startPattern = (some jsonHi, ['t']) ∧
    ((∃ pre, jsonHi ++ ['t'] = pre ++ jsonHi ++ ['t']) ∧
     (∃ body, jsonHi = body ++ ['}'] ∧ scanFold initScan body = ⟨1, false, false⟩) ∧
     scanFold initScan jsonHi = initScan) :=
  ⟨by decide, extract_returns_balanced_span (jsonHi ++ ['t']) startPattern jsonHi ['t'] (by decide)⟩

/-- A successful refresh leaves the returned token cached in
`access_token`. -/
theorem refresh_ok_accessToken (env : RefreshEnv) (st : AuthState) (tok : List Char)
    (h : (refreshAccessToken env st).result = RefreshResult.ok tok) :
    (refreshAccessToken env st).state.accessToken = some tok := by
  cases hc : env.cliToken with
  | some p =>
    obtain ⟨ct, ort⟩ := p
    simp only [refreshAccessToken, extractTokenFromCliDb, hc, Option.getD_some,
      RefreshResult.ok.injEq] at h ⊢
    rw [h]
  | none =>
    simp only [refreshAccessToken, extractTokenFromCliDb, hc] at h ⊢
    by_cases h1 : pyTruthy st.creds.refreshTokenSnake = true
    · simp only [h1, not_true_eq_false, if_false] at h ⊢
      by_cases h2 : pyTruthy (pyOrOpt st.creds.clientIdSnake st.creds.clientIdCamel) = true
          ∧ pyTruthy (pyOrOpt st.creds.clientSecretSnake st.creds.clientSecretCamel) = true
          ∧ pyTruthy (pyOrOpt st.creds.refreshTokenSnake st.creds.refreshTokenCamel) = true
      · rw [if_neg (by simpa using h2)] at h ⊢
        cases ho : env.oauthGrant with
        | none => rw [ho] at h; simp at h
        | some g =>
          obtain ⟨tk, ei⟩ := g
          rw [ho] at h
          have h2 : RefreshResult.ok tk = RefreshResult.ok tok := h
          have h3 : tk = tok := by injection h2
          show some tk = some tok
          rw [h3]
      · rw [if_pos (by simpa using h2)] at h
        simp at h
    · simp only [h1, not_false_eq_true, if_true] at h
      simp at h

/-- C5: with `retry_on_auth_error` enabled and a valid cached token, a
403 on the first attempt triggers exactly one token refresh and exactly
one retried POST carrying the refreshed token; whatever the second
attempt answers, no third POST is issued (the trace has exactly two
POSTs), a failing second status is surfaced as an HTTP error and a
successful one is returned. -/
theorem auth_retry_exactly_once (env : RefreshEnv) (penv : PostEnv) (st : AuthState)
    (tokR : List Char)
    (hvalid : needsRefresh env st = false)
    (h403 : penv.firstStatus = 403)
    (hrefresh : (refreshAccessToken env st).result = RefreshResult.ok tokR)
    (hvalid2 : needsRefresh env (refreshAccessToken env st).state = false) :
    (send_message env penv st true).postTokens = [st.accessToken.getD [], tokR] ∧
    (send_message env penv st true).refreshCalls = 1 ∧
    (400 ≤ penv.retryStatus →
      (send_message env penv st true).outcome = SendOutcome.httpError penv.retryStatus) ∧
    (penv.retryStatus < 400 →
      (send_message env penv st true).outcome = SendOutcome.ok penv.retryStatus) := by
  have htok := refresh_ok_accessToken env st tokR hrefresh
  have hg0 : getAccessToken env st =
      { result := .ok (st.accessToken.getD []), state := st,
        refreshCalls := 0, oauthPosts := 0 } := by
    simp [getAccessToken, hvalid]
  have hg1 : getAccessToken env (refreshAccessToken env st).state =
      { result := .ok tokR, state := (refreshAccessToken env st).state,
        refreshCalls := 0, oauthPosts := 0 } := by
    simp [getAccessToken, hvalid2, htok]
  have hsend : send_message env penv st true =
      { postTokens := [st.accessToken.getD [], tokR], refreshCalls := 1,
        outcome := if 400 ≤ penv.retryStatus then SendOutcome.httpError penv.retryStatus
                   else SendOutcome.ok penv.retryStatus,
        state := (refreshAccessToken env st).state } := by
    simp [send_message, hg0, hg1, hrefresh, h403]
  refine ⟨by rw [hsend], by rw [hsend], ?_, ?_⟩
  · intro h
    rw [hsend]
    simp [if_pos h]
  · intro h
    rw [hsend]
    simp [if_neg (Nat.not_le.mpr h)]

/-- Witness for C5: cached valid token `tok0`, CLI source delivering
`tok1`, statuses 403 then 500. -/
theorem auth_retry_exactly_once_witness :
    (send_message witRefreshEnv witPostEnv witAuthState true).postTokens
        = [witAuthState.accessToken.getD [], ("tok1").toList] ∧
    (send_message witRefreshEnv witPostEnv witAuthState true).refreshCalls = 1 ∧
    (400 ≤ witPostEnv.retryStatus →
      (send_message witRefreshEnv witPostEnv witAuthState true).outcome
        = SendOutcome.httpError witPostEnv.retryStatus) ∧
    (witPostEnv.retryStatus < 400 →
      (send_message witRefreshEnv witPostEnv witAuthState true).outcome
        = SendOutcome.ok witPostEnv.retryStatus) :=
  auth_retry_exactly_once witRefreshEnv witPostEnv witAuthState (("tok1").toList)
    (by decide) (by decide) (by decide) (by decide)

/-- C6 counterexample: the CLI extraction succeeds (`oauthPosts = 0`,
token adopted), but because `token_expiry` is left holding a stale past
timestamp rather than being cleared, the immediately following
`get_access_token` call refreshes again (`refreshCalls = 1`) instead of
returning the cached token without refreshing. -/
theorem cli_refresh_counterexample :
    (refreshAccessToken cexRefreshEnv cexAuthState).result
        = RefreshResult.ok (("newtok").toList) ∧
    (refreshAccessToken cexRefreshEnv cexAuthState).oauthPosts = 0 ∧
    (getAccessToken cexRefreshEnv (refreshAccessToken cexRefreshEnv cexAuthState).state).refreshCalls
        = 1 := by
  decide

/-- C6 amended: whenever the CLI database extraction succeeds,
`_refresh_access_token` adopts that token, persists it into the
credentials, and never issues the OAuth POST; `token_expiry` is left
unchanged rather than cleared, so a subsequent `get_access_token` call
returns the cached token without refreshing provided the pre-existing
expiry is absent or still in the future. -/
theorem cli_refresh_adopts_token (env : RefreshEnv) (st : AuthState)
    (tok : List Char) (ort : Option (List Char))
    (hcli : env.cliToken = some (tok, ort)) (htok : tok ≠ []) :
    (refreshAccessToken env st).result = RefreshResult.ok tok ∧
    (refreshAccessToken env st).oauthPosts = 0 ∧
    (refreshAccessToken env st).state.accessToken = some tok ∧
    (refreshAccessToken env st).state.creds.accessToken = some tok ∧
    (refreshAccessToken env st).state.tokenExpiry = st.tokenExpiry ∧
    ((st.tokenExpiry = none ∨ ∃ e, st.tokenExpiry = some e ∧ env.now < e) →
      getAccessToken env (refreshAccessToken env st).state =
        { result := RefreshResult.ok tok, state := (refreshAccessToken env st).state,
          refreshCalls := 0, oauthPosts := 0 }) := by
  have hempty : tok.isEmpty = false := by
    cases tok with
    | nil => exact absurd rfl htok
    | cons c cs => rfl
  simp only [refreshAccessToken, extractTokenFromCliDb, hcli, Option.getD_some]
  refine ⟨trivial, trivial, trivial, trivial, trivial, ?_⟩
  intro hfresh
  have hnr : ∀ cr : Credentials, needsRefresh env
      { accessToken := some tok, tokenExpiry := st.tokenExpiry, creds := cr } = false := by
    intro cr
    rcases hfresh with hnone | ⟨e, he, hlt⟩
    · simp [needsRefresh, pyTruthy, hempty, hnone]
    · simp [needsRefresh, pyTruthy, hempty, he, Int.not_le.mpr hlt]
  simp [getAccessToken, hnr]

/-- Witness for C6 at the CLI environment of the C5 witness (expiry
absent, so the follow-up call is served from cache). -/
theorem cli_refresh_adopts_token_witness :
    (refreshAccessToken witRefreshEnv witAuthState).result
        = RefreshResult.ok (("tok1").toList) ∧
    (refreshAccessToken witRefreshEnv witAuthState).oauthPosts = 0 ∧
    (refreshAccessToken witRefreshEnv witAuthState).state.accessToken
        = some (("tok1").toList) ∧
    (refreshAccessToken witRefreshEnv witAuthState).state.creds.accessToken
        = some (("tok1").toList) ∧
    (refreshAccessToken witRefreshEnv witAuthState).state.tokenExpiry
        = witAuthState.tokenExpiry ∧
    ((witAuthState.tokenExpiry = none
        ∨ ∃ e, witAuthState.tokenExpiry = some e ∧ witRefreshEnv.now < e) →
      getAccessToken witRefreshEnv (refreshAccessToken witRefreshEnv witAuthState).state =
        { result := RefreshResult.ok (("tok1").toList),
          state := (refreshAccessToken witRefreshEnv witAuthState).state,
          refreshCalls := 0, oauthPosts := 0 }) :=
  cli_refresh_adopts_token witRefreshEnv witAuthState (("tok1").toList) none
    (by decide) (by decide)

/-- C7: when the CLI source fails, the credentials are present, and the
OAuth POST fails with a transport/HTTP error, `_refresh_access_token`
raises (`refreshError`) and the state — cached `access_token`,
`token_expiry`, and the persisted credentials — is exactly the input
state: no partial update. -/
theorem oauth_failure_atomic (env : RefreshEnv) (st : AuthState)
    (hcli : env.cliToken = none)
    (hrt : pyTruthy st.creds.refreshTokenSnake = true)
    (hcid : pyTruthy (pyOrOpt st.creds.clientIdSnake st.creds.clientIdCamel) = true)
    (hcs : pyTruthy (pyOrOpt st.creds.clientSecretSnake st.creds.clientSecretCamel) = true)
    (hoauth : env.oauthGrant = none) :
    refreshAccessToken env st =
      { result := RefreshResult.err AuthError.refreshError, state := st, oauthPosts := 1 } := by
  have hrt2 : pyTruthy (pyOrOpt st.creds.refreshTokenSnake st.creds.refreshTokenCamel) = true := by
    simp [pyOrOpt, hrt]
  simp [refreshAccessToken, extractTokenFromCliDb, hcli, hrt, hcid, hcs, hrt2, hoauth]

/-- Witness for C7 with full credentials and a dead OAuth endpoint. -/
theorem oauth_failure_atomic_witness :
    refreshAccessToken witRefreshEnv7 witAuthState7 =
      { result := RefreshResult.err AuthError.refreshError, state := witAuthState7,
        oauthPosts := 1 } :=
  oauth_failure_atomic witRefreshEnv7 witAuthState7
    (by decide) (by decide) (by decide) (by decide) (by decide)

/-- C8 counterexample: when the upstream transport raises mid-stream,
the `except` handler emits a single error chunk — the OpenAI stream does
not end with the `data: [DONE]` sentinel, and the Anthropic stream emits
no `message_stop` at all. -/
theorem sse_stream_shape_counterexample :
    (generate_openai decodeNone 10240 [] true).getLast? ≠ some OaiEvent.doneLine ∧
    (generate_anthropic decodeNone 10240 [] true).countP isMessageStop = 0 := by
  decide

/-- The last element of `x :: l ++ [f, d]` is `d`. -/
theorem lastOfConsAppendPair {α : Type} (x f d : α) (l : List α) :
    (x :: l ++ [f, d]).getLast? = some d := by
  rw [show x :: l ++ [f, d] = (x :: l ++ [f]) ++ [d] by simp, List.getLast?_concat]

/-- C8 amended: whenever the upstream iteration completes without
raising (and, for the Anthropic path, no non-string fragment poisons the
final join), the OpenAI output is the start chunk, the content deltas,
then the terminal `finish_reason=stop` chunk followed by the
`data: [DONE]` sentinel as the last element; the Anthropic output is
exactly `message_start, content_block_start, content_block_delta*,
content_block_stop, message_delta, message_stop`, with exactly one
`message_start` and one `message_stop`. -/
theorem sse_stream_shape (decode : List Char → DecodeResult) (maxSize : Nat)
    (chunks : List (List Char))
    (hstr : ∀ v ∈ streamEmitted decode (feedChunks maxSize [] chunks).1, v.isNone = false) :
    (generate_openai decode maxSize chunks false
      = OaiEvent.roleChunk
          :: (streamEmitted decode (feedChunks maxSize [] chunks).1).map OaiEvent.contentChunk
          ++ [OaiEvent.finishChunk, OaiEvent.doneLine]) ∧
    (generate_openai decode maxSize chunks false).getLast? = some OaiEvent.doneLine ∧
    (generate_anthropic decode maxSize chunks false
      = AnthEvent.messageStart :: AnthEvent.contentBlockStart
          :: (streamEmitted decode (feedChunks maxSize [] chunks).1).map AnthEvent.contentBlockDelta
          ++ [AnthEvent.contentBlockStop, AnthEvent.messageDelta,
              AnthEvent.messageStop
                ((streamEmitted decode (feedChunks maxSize [] chunks).1).filterMap id).flatten]) ∧
    (generate_anthropic decode maxSize chunks false).countP isMessageStart = 1 ∧
    (generate_anthropic decode maxSize chunks false).countP isMessageStop = 1 := by
  have hany : ((streamEmitted decode (feedChunks maxSize [] chunks).1).any
      (fun v => v.isNone)) = false := by
    simp only [List.any_eq_false]
    intro x hx
    simp [hstr x hx]
  have hcond : ¬ ((false : Bool) = true ∨ ((streamEmitted decode
      (feedChunks maxSize [] chunks).1).any (fun v => v.isNone)) = true) := by
    intro hor
    rcases hor with hb | hb
    · exact absurd hb (by simp)
    · rw [hany] at hb
      exact absurd hb (by simp)
  have hoai : generate_openai decode maxSize chunks false
      = OaiEvent.roleChunk
          :: (streamEmitted decode (feedChunks maxSize [] chunks).1).map OaiEvent.contentChunk
          ++ [OaiEvent.finishChunk, OaiEvent.doneLine] := rfl
  have hanth : generate_anthropic decode maxSize chunks false
      = AnthEvent.messageStart :: AnthEvent.contentBlockStart
          :: (streamEmitted decode (feedChunks maxSize [] chunks).1).map AnthEvent.contentBlockDelta
          ++ [AnthEvent.contentBlockStop, AnthEvent.messageDelta,
              AnthEvent.messageStop
                ((streamEmitted decode (feedChunks maxSize [] chunks).1).filterMap id).flatten] := by
    unfold generate_anthropic
    rw [if_neg hcond]
  refine ⟨hoai, ?_, hanth, ?_, ?_⟩
  · rw [hoai, lastOfConsAppendPair]
  · rw [hanth]
    simp [List.countP_cons, List.countP_append, List.countP_map, isMessageStart,
      Function.comp]
  · rw [hanth]
    simp [List.countP_cons, List.countP_append, List.countP_map, isMessageStop,
      Function.comp]

/-- Witness for C8 at the single-fragment upstream body. -/
theorem sse_stream_shape_witness :
    (generate_openai decodeHi 64 [jsonHi] false).getLast? = some OaiEvent.doneLine ∧
    (generate_anthropic decodeHi 64 [jsonHi] false).countP isMessageStop = 1 :=
  ⟨(sse_stream_shape decodeHi 64 [jsonHi] (by decide)).2.1,
   (sse_stream_shape decodeHi 64 [jsonHi] (by decide)).2.2.2.2⟩

/-- C9: the credential get-status response is a function of the presence
(non-emptiness) of `refresh_token` and `access_token` and of the expiry
timestamp only — two states agreeing on those but differing arbitrarily
in the secret string values produce identical response bodies, so no
secret value is revealed. -/
theorem credentials_status_no_secrets (s1 s2 : AuthState)
    (hrt : pyTruthy s1.creds.refreshTokenSnake = pyTruthy s2.creds.refreshTokenSnake)
    (hat : pyTruthy s1.accessToken = pyTruthy s2.accessToken)
    (hexp : s1.tokenExpiry = s2.tokenExpiry) :
    get_credentials_status s1 = get_credentials_status s2 := by
  simp [get_credentials_status, hrt, hat, hexp]

/-- Witness for C9: two states whose secret strings differ in content
and length yield identical status bodies. -/
theorem credentials_status_no_secrets_witness :
    get_credentials_status wStatusState1 = get_credentials_status wStatusState2 :=
  credentials_status_no_secrets wStatusState1 wStatusState2 (by decide) (by decide) (by decide)

/-- C10: the model id sent upstream is `claude-sonnet-4` exactly when
the requested model equals `claude-sonnet-4`, and `claude-sonnet-4.5` in
every other case (including `amazon-q`, which has no explicit branch,
and every unrecognized name); the mapping is total, so no request is
rejected for an unknown model identifier. -/
theorem model_id_resolution (model : List Char) :
    resolveModelId model = (if model = modelSonnet4 then modelSonnet4 else modelSonnet45) := by
  unfold resolveModelId
  by_cases h45 : model = modelSonnet45
  · subst h45
    decide
  · by_cases h4 : model = modelSonnet4
    · subst h4
      decide
    · by_cases hq : model = modelAmazonQ
      · subst hq
        decide
      · simp [h45, h4, hq]

end Aq2Api
